import Mathlib

/-!
Verification development for the cpyvn visual-novel engine core:
the script parser (statement grammar, block resolver, include
resolution) and the runtime interpreter (state machine, condition
evaluation, hotspot hit-testing, cache directives, save/load codec).

The parser and runtime implementation modules are not present in the
source tree (only their tests and export tooling are), so the
definitions below are shallow embeddings modelled from the design
specification, with behavioural details pinned down by the repository's
regression tests (`tests/test_parser_regressions.py`,
`tests/test_parser_commands_matrix.py`,
`tests/test_runtime_regressions.py`).
-/

namespace VN

/-- Modelled from the spec: scalar variable values, one of
Number, String, Bool (§3 "Variable"). Numbers are modelled as
rationals standing for the engine's Python int/float values. -/
inductive Value where
  | num (q : ℚ)
  | str (s : String)
  | bool (b : Bool)
  deriving DecidableEq, Repr

/-- Modelled from the spec: the six relational operators of
`IfJump` conditions (§4.3): ==, !=, >, >=, <, <=. -/
inductive CmpOp where
  | eq | ne | gt | ge | lt | le
  deriving DecidableEq, Repr

/-- Modelled from the spec: the logical inverse of a comparison
operator, used by the block-form `check` resolver (§4.2): the written
operator is inverted so the skip-jump fires exactly when the condition
fails. -/
def CmpOp.inv : CmpOp → CmpOp
  | .eq => .ne
  | .ne => .eq
  | .gt => .le
  | .ge => .lt
  | .lt => .ge
  | .le => .gt

/-- Modelled from the spec: numeric evaluation of a comparison
operator (§4.3 condition evaluation), on successfully coerced
numbers. -/
def CmpOp.evalNum : CmpOp → ℚ → ℚ → Bool
  | .eq, a, b => decide (a = b)
  | .ne, a, b => decide (a ≠ b)
  | .gt, a, b => decide (a > b)
  | .ge, a, b => decide (a ≥ b)
  | .lt, a, b => decide (a < b)
  | .le, a, b => decide (a ≤ b)

/-- Modelled from the spec: the surface spelling of the written
comparison operator, kept because parsed commands store the operator
as a string (tests compare `gate.op` with string literals). -/
def CmpOp.render : CmpOp → String
  | .eq => "=="
  | .ne => "!="
  | .gt => ">"
  | .ge => ">="
  | .lt => "<"
  | .le => "<="

/-- Modelled from the spec: the immutable command vocabulary (§3
"Command"), restricted to the variants exercised by the claims under
verification.  Each parsed statement becomes one of these. -/
inductive Cmd where
  | label (name : String)
  | say (speaker text : String)
  | jump (target : String)
  | ifJump (name : String) (op : CmpOp) (value : Value) (target : String)
  | choice (prompt : String) (options : List (String × String))
      (timeout : Option ℚ) (timeoutDefault : Option ℕ)
  | notify (text : String) (seconds : ℚ)
  | setVar (name : String) (value : Value)
  | addVar (name : String) (amount : ℚ)
  | showChar (ident expression : String)
  | mapPoi (label : String) (pos : ℚ × ℚ) (target : String)
  | mapShow (value : String)
  | hotspotAdd (name : String) (x y w h : ℚ) (target : String)
  | hotspotPoly (name : String) (points : List (ℚ × ℚ)) (target : String)
  | cacheClear (kind : String) (path : Option String)
  | callScript (path : String) (entry : String)
  deriving DecidableEq, Repr

/-- Modelled from the spec: the statement forms the block resolver
consumes (§4.2), including both forms of `check`. A `checkBlock`
carries its body statements; everything else maps to one command. -/
inductive Stmt where
  | label (name : String)
  | say (speaker text : String)
  | jump (target : String)
  | notify (text : String) (seconds : ℚ)
  | setVar (name : String) (value : Value)
  | checkGo (name : String) (op : CmpOp) (value : Value) (target : String)
  | checkBlock (name : String) (op : CmpOp) (value : Value) (body : List Stmt)
  | cacheClearStmt (arg : String) (path : Option String)
  deriving Repr

/-- Modelled from the spec: deterministic name of the N-th generated
check-skip label (§4.2: "auto-generated, globally-unique skip label
(deterministic naming, e.g. `__check_skip_N`)"). -/
def checkSkipLabel (n : ℕ) : String :=
  "__check_skip_" ++ toString n

/-- Modelled from the spec: the surface `cache clear <arg>` argument
to command kind mapping. Pinned by `test_cache_commands`: the five
spellings images/scripts/runtime/scene/script map to the kinds
["images", "scripts", "runtime", "runtime", "script"] — `scene` is an
alias for the `runtime` kind. -/
def cacheClearKindOf (arg : String) : String :=
  if arg == "scene" then "runtime" else arg

mutual

/-- Modelled from the spec: compile one statement into its flat
command sequence, threading the fresh-label counter (§4.2 block
resolver).  The block form of `check` emits an IfJump on the inverted
operator targeting a fresh skip label, then the body, then the skip
Label. -/
def compileStmt (n : ℕ) : Stmt → List Cmd × ℕ
  | .label name => ([.label name], n)
  | .say sp tx => ([.say sp tx], n)
  | .jump t => ([.jump t], n)
  | .notify tx s => ([.notify tx s], n)
  | .setVar name v => ([.setVar name v], n)
  | .checkGo name op v t => ([.ifJump name op v t], n)
  | .checkBlock name op v body =>
      let lbl := checkSkipLabel n
      let r := compileStmts (n + 1) body
      (Cmd.ifJump name op.inv v lbl :: r.1 ++ [Cmd.label lbl], r.2)
  | .cacheClearStmt arg path => ([.cacheClear (cacheClearKindOf arg) path], n)

/-- Modelled from the spec: compile a statement list left to right,
threading the fresh-label counter. -/
def compileStmts (n : ℕ) : List Stmt → List Cmd × ℕ
  | [] => ([], n)
  | s :: rest =>
      let r := compileStmt n s
      let r' := compileStmts r.2 rest
      (r.1 ++ r'.1, r'.2)

end

/-- The name carried by a Label command, if any. -/
def cmdLabel : Cmd → Option String
  | .label name => some name
  | _ => none

/-- Names of the Label commands in a command list, in order. -/
def labelNames (cmds : List Cmd) : List String :=
  cmds.filterMap cmdLabel

/-- Label-table rows of a command list whose first command sits at
index `i`. -/
def labelTableFrom (i : ℕ) : List Cmd → List (String × ℕ)
  | [] => []
  | c :: rest =>
      match cmdLabel c with
      | some name => (name, i) :: labelTableFrom (i + 1) rest
      | none => labelTableFrom (i + 1) rest

/-- Modelled from the spec: the label table of a command sequence —
each Label command's name mapped to its index (§3 "Program"). -/
def labelTable (cmds : List Cmd) : List (String × ℕ) :=
  labelTableFrom 0 cmds

/-- First-match lookup in an association list, as the runtime's
label-table lookup behaves. -/
def alistLookup {α : Type} (key : String) : List (String × α) → Option α
  | [] => none
  | (k, v) :: rest => if k == key then some v else alistLookup key rest

/-- Modelled from the spec: a parsed Program — the command sequence
plus its label table (§3). -/
structure Program where
  commands : List Cmd
  labels : List (String × ℕ)
  deriving DecidableEq, Repr

/-- Modelled from the spec: parse (resolve) a statement list into a
Program, starting the fresh-label counter at zero. -/
def parseStmts (stmts : List Stmt) : Program :=
  let cmds := (compileStmts 0 stmts).1
  { commands := cmds, labels := labelTable cmds }

/-- Does a target carry the `::` root-namespace prefix (§4.2
Include)?  Checked on the character data so the test is structural. -/
def isGlobalTarget (t : String) : Bool :=
  "::".data.isPrefixOf t.data

/-- Strip the two-character `::` root-namespace marker. -/
def stripGlobal (t : String) : String :=
  String.mk (t.data.drop 2)

/-- Modelled from the spec: rewrite one jump/poi target under the
include alias — a `::`-prefixed target has the marker stripped and
resolves at the root, any other target becomes alias-relative. -/
def qualifyTarget (al t : String) : String :=
  if isGlobalTarget t then stripGlobal t else al ++ "." ++ t

/-- The jump/poi target strings carried by a command, in order. -/
def cmdTargets : Cmd → List String
  | .jump t => [t]
  | .ifJump _ _ _ t => [t]
  | .choice _ opts _ _ => opts.map Prod.snd
  | .mapPoi _ _ t => [t]
  | .hotspotAdd _ _ _ _ _ t => [t]
  | .hotspotPoly _ _ t => [t]
  | _ => []

/-- Modelled from the spec: rename one command of an included file
under the include alias (§4.2 Include): Label names gain the
`<alias>.` prefix, and every jump/poi target is rewritten by
`qualifyTarget`. -/
def renameCmd (al : String) : Cmd → Cmd
  | .label name => .label (al ++ "." ++ name)
  | .jump t => .jump (qualifyTarget al t)
  | .ifJump n op v t => .ifJump n op v (qualifyTarget al t)
  | .choice p opts tmo td =>
      .choice p (opts.map (fun o => (o.1, qualifyTarget al o.2))) tmo td
  | .mapPoi l pos t => .mapPoi l pos (qualifyTarget al t)
  | .hotspotAdd n x y w h t => .hotspotAdd n x y w h (qualifyTarget al t)
  | .hotspotPoly n pts t => .hotspotPoly n pts (qualifyTarget al t)
  | .say sp tx => .say sp tx
  | .notify tx s => .notify tx s
  | .setVar n v => .setVar n v
  | .addVar n a => .addVar n a
  | .showChar i e => .showChar i e
  | .mapShow v => .mapShow v
  | .cacheClear k p => .cacheClear k p
  | .callScript p e => .callScript p e

/-- Modelled from the spec: merge an included file's (already parsed)
commands into the including file's Program under an alias — the
included commands are emitted first (the include statement is the
file's first statement), renamed by `renameCmd`, followed by the
including file's own compiled statements; the label table is built
over the merged sequence (§4.2 Include, §3 Program). -/
def parseWithInclude (al : String) (incCmds : List Cmd)
    (body : List Stmt) : Program :=
  let cmds := incCmds.map (renameCmd al) ++ (compileStmts 0 body).1
  { commands := cmds, labels := labelTable cmds }

/-- Modelled from the spec: structured parse-time error (§7). -/
structure ScriptParseError where
  message : String
  deriving DecidableEq, Repr

/-- A top-level statement of a script file: either an include
directive or an ordinary (command-producing) statement. -/
inductive TopStmt where
  | includeStmt (path al : String)
  | stmt (s : Stmt)

/-- Modelled from the spec: process top-level statements in order
(§4.2 Include: "`include \"<path>\" as <alias>;` MUST be the first
command-producing statement in the file; violating this is a parse
error").  `resolve` supplies the already-parsed commands of included
files; `emitted` records whether any command-producing statement has
been processed. -/
def parseTopAux (resolve : String → List Cmd) :
    List TopStmt → List Cmd → ℕ → Bool → Except ScriptParseError (List Cmd)
  | [], acc, _, _ => .ok acc
  | .includeStmt path al :: rest, acc, n, emitted =>
      if emitted then
        .error { message := "include must appear before any other commands" }
      else
        parseTopAux resolve rest (acc ++ (resolve path).map (renameCmd al)) n emitted
  | .stmt s :: rest, acc, n, _ =>
      let r := compileStmt n s
      parseTopAux resolve rest (acc ++ r.1) r.2 true

/-- Modelled from the spec: parse a whole script file from its
top-level statements, producing a Program or a parse error. -/
def parseTop (resolve : String → List Cmd) (ts : List TopStmt) :
    Except ScriptParseError Program :=
  (parseTopAux resolve ts [] 0 false).map
    (fun cmds => { commands := cmds, labels := labelTable cmds })

/-- Insert or replace a binding in an association list, keeping the
first occurrence's position. -/
def alistInsert {α : Type} (key : String) (v : α) :
    List (String × α) → List (String × α)
  | [] => [(key, v)]
  | (k, w) :: rest =>
      if k == key then (k, v) :: rest else (k, w) :: alistInsert key v rest

/-- Modelled from the spec: render a variable value into user-facing
text for interpolation; integral numbers render without a fractional
part (Python ints). -/
def valueText : Value → String
  | .num q => if q.den = 1 then toString q.num else toString q
  | .str s => s
  | .bool b => if b then "true" else "false"

/-- Characters allowed in a bare `$name` placeholder. -/
def isIdentChar (c : Char) : Bool :=
  c.isAlphanum || c == '_'

/-- The interpolation text for a variable name: the current value's
rendering, or empty when the variable is unbound (the model's choice
for the case the spec leaves open). -/
def lookupTextChars (vars : List (String × Value)) (name : List Char) : List Char :=
  match alistLookup (String.mk name) vars with
  | some v => (valueText v).data
  | none => []

/-- Modelled from the spec: resolve `${name}` and `$name` placeholders
in a character stream against the given variable store (§4.3 "String
interpolation").  The fuel argument (one unit per processed character)
only makes the recursion structural; `interpolate` supplies enough. -/
def interpChars (vars : List (String × Value)) : ℕ → List Char → List Char
  | 0, cs => cs
  | _ + 1, [] => []
  | fuel + 1, '$' :: '{' :: rest =>
      let name := rest.takeWhile (fun c => c != '}')
      let after := (rest.dropWhile (fun c => c != '}')).drop 1
      lookupTextChars vars name ++ interpChars vars fuel after
  | fuel + 1, '$' :: c :: rest =>
      if isIdentChar c then
        let name := c :: rest.takeWhile isIdentChar
        let after := rest.dropWhile isIdentChar
        lookupTextChars vars name ++ interpChars vars fuel after
      else
        '$' :: c :: interpChars vars fuel rest
  | _ + 1, ['$'] => ['$']
  | fuel + 1, c :: rest => c :: interpChars vars fuel rest

/-- Modelled from the spec: string interpolation against the current
variable store, applied by the interpreter at the moment a Say,
Notify or Choice command executes (§4.3). -/
def interpolate (vars : List (String × Value)) (s : String) : String :=
  String.mk (interpChars vars s.data.length s.data)

/-- Modelled from the spec: a sigil-prefixed string value assigned by
SetVar resolves to the live value of the referenced variable
(`test_set_say_choice_notify_support_variable_interpolation`:
`SetVar(name="copy", value="$coins")` stores the number 7). -/
def resolveValue (vars : List (String × Value)) : Value → Value
  | .str t =>
      match t.data with
      | '$' :: rest =>
          match alistLookup (String.mk rest) vars with
          | some v => v
          | none => .str t
      | _ => .str t
  | v => v

/-- Numeric coercion of a variable value for relational comparison;
non-numeric values do not coerce (§4.3, §7). -/
def coerceNum : Value → Option ℚ
  | .num q => some q
  | _ => none

/-- Modelled from the spec: IfJump condition evaluation (§4.3):
numeric operators require numeric coercion of both sides and evaluate
false when coercion fails; `==`/`!=` fall back to exact value equality
for non-numeric operands.  A sigil-prefixed comparison value reads the
live value of the referenced variable. -/
def eval_condition (vars : List (String × Value))
    (name : String) (op : CmpOp) (value : Value) : Bool :=
  let lhs := (alistLookup name vars).getD (.str "")
  let rhs := resolveValue vars value
  match coerceNum lhs, coerceNum rhs with
  | some a, some b => op.evalNum a b
  | _, _ =>
      match op with
      | .eq => lhs == rhs
      | .ne => lhs != rhs
      | _ => false

/-- Modelled from the spec: the process-wide camera transform —
pan and zoom between background-world space and screen space (§3
"CameraSet"). -/
structure Camera where
  panX : ℚ
  panY : ℚ
  zoom : ℚ
  deriving DecidableEq, Repr

/-- Modelled from the spec: the forward camera transform used for
rendering — subtract the pan, then scale by the zoom (§4.3
hotspot hit-testing; `test_polygon_hotspot_respects_camera_transform`
uses `_bg_world_to_screen`). -/
def bg_world_to_screen (cam : Camera) (p : ℚ × ℚ) : ℚ × ℚ :=
  ((p.1 - cam.panX) * cam.zoom, (p.2 - cam.panY) * cam.zoom)

/-- Modelled from the spec: the inverse camera transform — a screen
point divided by the zoom, then translated back by the pan (§4.3:
screen clicks are transformed to world space "using the inverse of
the active CameraSet"). -/
def screen_to_bg_world (cam : Camera) (p : ℚ × ℚ) : ℚ × ℚ :=
  (p.1 / cam.zoom + cam.panX, p.2 / cam.zoom + cam.panY)

/-- One even-odd ray-crossing test of point-in-polygon testing: does
the horizontal ray from `p` cross the edge from `a` to `b`? -/
def edgeCrossing (p a b : ℚ × ℚ) : Bool :=
  (decide (a.2 > p.2) != decide (b.2 > p.2)) &&
    decide (p.1 < (b.1 - a.1) * (p.2 - a.2) / (b.2 - a.2) + a.1)

/-- The edges of a closed polygon: consecutive vertex pairs, the last
vertex joined back to the first. -/
def polyEdges (pts : List (ℚ × ℚ)) : List ((ℚ × ℚ) × (ℚ × ℚ)) :=
  match pts with
  | [] => []
  | p0 :: _ => pts.zip (pts.drop 1 ++ [p0])

/-- Modelled from the spec: point-in-polygon testing by even-odd ray
crossing, in background-world coordinates (§4.3 hotspot
hit-testing). -/
def pointInPoly (pts : List (ℚ × ℚ)) (p : ℚ × ℚ) : Bool :=
  (polyEdges pts).foldl (fun acc e => if edgeCrossing p e.1 e.2 then !acc else acc) false

/-- Modelled from the spec: a hotspot region — rectangular or
polygonal, in background-world coordinates (§3 "Hotspot"). -/
inductive HotspotShape where
  | rect (x y w h : ℚ)
  | poly (points : List (ℚ × ℚ))
  deriving DecidableEq, Repr

/-- Modelled from the spec: a clickable world-space region bound to a
jump target (§3 "Hotspot"). -/
structure Hotspot where
  name : String
  shape : HotspotShape
  target : String
  deriving DecidableEq, Repr

/-- Containment of a world-space point in a hotspot's region. -/
def hotspotContains (h : Hotspot) (p : ℚ × ℚ) : Bool :=
  match h.shape with
  | .rect x y w ht =>
      decide (x ≤ p.1) && decide (p.1 ≤ x + w) &&
        decide (y ≤ p.2) && decide (p.2 ≤ y + ht)
  | .poly pts => pointInPoly pts p

/-- Modelled from the spec: the scene background — kind (color/image),
value, and optional float-animation parameters; the default is a black
color background (§4.3 cache directives). -/
structure BackgroundState where
  kind : String := "color"
  value : String := "#000000"
  floatAmp : Option ℚ := none
  floatSpeed : Option ℚ := none
  deriving DecidableEq, Repr

/-- Modelled from the spec: a per-identifier sprite record (§3
"SpriteState"). -/
structure SpriteState where
  value : String
  anchor : Option String := none
  z : ℤ := 0
  pos : Option (ℚ × ℚ) := none
  size : Option (ℚ × ℚ) := none
  alpha : Option ℕ := none
  floatAmp : Option ℚ := none
  floatSpeed : Option ℚ := none
  deriving DecidableEq, Repr

/-- Modelled from the spec: one inventory item record (§3). -/
structure InvItem where
  name : String
  desc : String
  icon : Option String := none
  count : ℕ := 1
  deriving DecidableEq, Repr

/-- Modelled from the spec: one meter record (§3). -/
structure MeterState where
  label : String
  minVal : ℚ
  maxVal : ℚ
  value : ℚ
  color : String
  deriving DecidableEq, Repr

/-- Modelled from the spec: one hud button record (§3, §6 save-file
`hud_buttons[]`). -/
structure HudButton where
  name : String
  style : String
  text : Option String := none
  icon : Option String := none
  target : String
  rect : ℚ × ℚ × ℚ × ℚ
  deriving DecidableEq, Repr

/-- Modelled from the spec: one map-overlay point of interest (§3,
§6 save-file `map.points[]`). -/
structure MapPoint where
  label : String
  target : String
  pos : ℚ × ℚ
  points : List (ℚ × ℚ) := []
  deriving DecidableEq, Repr

/-- Modelled from the spec: a character definition produced by a
character block — display defaults later ShowChar commands reference
by id (§4.2). -/
structure CharacterDef where
  ident : String
  displayName : Option String := none
  color : Option String := none
  voiceTag : Option String := none
  pos : Option (ℚ × ℚ) := none
  z : Option ℤ := none
  floatAmp : Option ℚ := none
  floatSpeed : Option ℚ := none
  anchor : Option String := none
  sprites : List (String × String) := []
  deriving DecidableEq, Repr

/-- Modelled from the spec: the active choice prompt and its ordered
(label, target) options (§3 "ChoiceState"). -/
structure ChoiceState where
  prompt : String
  options : List (String × String)
  deriving DecidableEq, Repr

/-- Modelled from the spec: the `waiting` block of a save payload for
an in-progress choice — options, selected index, timeout duration,
timeout default and elapsed timeout time (§6 save file). -/
structure ChoiceSnapshot where
  prompt : String
  options : List (String × String)
  selected : Option ℕ
  timeoutMs : Option ℚ
  timeoutDefault : Option ℕ
  timeoutElapsedMs : Option ℚ
  deriving DecidableEq, Repr

/-- Modelled from the spec: the save payload (§6 "Save file"): schema
version, project-relative script path (as path segments), command
index, and the full mutable interpreter state. -/
structure SaveData where
  saveVersion : ℕ
  scriptPath : List String
  index : ℕ
  background : BackgroundState
  vars : List (String × Value)
  sprites : List (String × SpriteState)
  inventory : List (String × InvItem)
  inventoryPage : ℕ
  inventoryOpen : Bool
  meters : List (String × MeterState)
  hudButtons : List HudButton
  music : Option (String × Bool)
  waiting : Option ChoiceSnapshot
  characters : List (String × CharacterDef)
  hotspots : List Hotspot
  hotspotDebug : Bool
  mapActive : Bool
  mapImage : Option String
  mapPoints : List MapPoint
  camera : Camera
  deriving DecidableEq, Repr

/-- Modelled from the spec: the content of the quick-save slot — empty,
well-formed (a decoded payload), or malformed/unparseable text (§4.3
Save/Load: "Malformed/unparseable save content is ignored"). -/
inductive SaveFile where
  | missing
  | malformed (raw : String)
  | valid (d : SaveData)
  deriving DecidableEq, Repr

/-- Modelled from the spec: the interpreter's full mutable state (§3,
§4.3) — program position, variable store, scene, overlay, choice,
persistence-slot and cache state.  Times are in milliseconds. -/
structure RState where
  commands : List Cmd := []
  labels : List (String × ℕ) := []
  index : ℕ := 0
  vars : List (String × Value) := []
  background : BackgroundState := {}
  sprites : List (String × SpriteState) := []
  inventory : List (String × InvItem) := []
  inventoryPage : ℕ := 0
  inventoryOpen : Bool := false
  meters : List (String × MeterState) := []
  hudButtons : List HudButton := []
  music : Option (String × Bool) := none
  currentSay : Option (String × String) := none
  currentChoice : Option ChoiceState := none
  choiceSelected : Option ℕ := none
  choiceTimeoutMs : Option ℚ := none
  choiceTimeoutDefault : Option ℕ := none
  choiceTimerStartMs : Option ℚ := none
  notifyMessage : Option String := none
  notifyUntilMs : Option ℚ := none
  waitUntilMs : Option ℚ := none
  videoPlayer : Option String := none
  videoSurface : Option String := none
  videoPath : Option String := none
  characters : List (String × CharacterDef) := []
  hotspots : List Hotspot := []
  hotspotDebug : Bool := false
  mapActive : Bool := false
  mapImage : Option String := none
  mapPoints : List MapPoint := []
  camera : Camera := { panX := 0, panY := 0, zoom := 1 }
  scriptCache : List (List String × (List Cmd × List (String × ℕ))) := []
  projectRoot : List String := []
  currentScriptPath : List String := []
  saveFile : SaveFile := .missing
  nowMs : ℚ := 0
  deriving DecidableEq, Repr

/-- Modelled from the spec: resolve a jump target name — a `::` prefix
forces lookup in the root namespace (`test_jump_accepts_global_prefix`:
`_jump("::end")` lands on label `end`). -/
def resolveTargetName (t : String) : String :=
  if isGlobalTarget t then stripGlobal t else t

/-- Modelled from the spec: jump to a label — set the command index to
the label's index in the label table; an unknown label leaves the
state unchanged in this model (§4.3). -/
def jump (s : RState) (target : String) : RState :=
  match alistLookup (resolveTargetName target) s.labels with
  | some i => { s with index := i }
  | none => s

/-- Modelled from the spec: hotspot click handling (§4.3): the
screen-space click is transformed to world space by the inverse of the
active camera, the first hotspot (in insertion order) containing the
world point wins, and its jump target is taken; returns whether a
hotspot was hit together with the resulting state. -/
def handle_hotspot_click (s : RState) (click : ℚ × ℚ) : Bool × RState :=
  let world := screen_to_bg_world s.camera click
  match s.hotspots.find? (fun h => hotspotContains h world) with
  | some h => (true, jump s h.target)
  | none => (false, s)

/-- Modelled from the spec: the CacheClear command's effect on
interpreter state (§4.3 cache directives).  `scripts` clears only the
script-parse cache; `runtime` clears the script cache, sprites,
hotspots, video, dialogue, notification and pending-wait state and
resets camera and background to their defaults, leaving variables
untouched; `script` with a path evicts that parse entry, and if it is
the current script also resets transient scene state. -/
def apply_cache_clear (kind : String) (path : Option String) (s : RState) : RState :=
  if kind == "scripts" then
    { s with scriptCache := [] }
  else if kind == "runtime" then
    { s with scriptCache := [],
             sprites := [],
             hotspots := [],
             videoPlayer := none,
             videoSurface := none,
             videoPath := none,
             currentSay := none,
             notifyMessage := none,
             notifyUntilMs := none,
             waitUntilMs := none,
             background := {},
             camera := { panX := 0, panY := 0, zoom := 1 } }
  else if kind == "script" then
    match path with
    | none => s
    | some p =>
        let resolved := s.projectRoot ++ [p]
        let s' := { s with scriptCache := s.scriptCache.filter (fun e => e.1 ≠ resolved) }
        if resolved = s.currentScriptPath then
          { s' with sprites := [], currentSay := none }
        else s'
  else s

/-- Modelled from the spec: a character block's definition is recorded
under the character id (§4.2 Character block). -/
def apply_character_def (s : RState) (cd : CharacterDef) : RState :=
  { s with characters := alistInsert cd.ident cd s.characters }

/-- Modelled from the spec: ShowChar resolves the requested expression
in the character's sprite map, falling back to the sprite registered
under the key "default" when the expression is missing; the sprite
record inherits the character's anchor/z/float defaults unless the
command overrides them
(`test_apply_show_char_uses_defaults_and_fallback`). -/
def apply_show_char (s : RState) (ident expr : String)
    (anchor : Option String) (fa fs : Option ℚ) : RState :=
  match alistLookup ident s.characters with
  | none => s
  | some cd =>
      let value :=
        match alistLookup expr cd.sprites with
        | some v => v
        | none => (alistLookup "default" cd.sprites).getD ""
      let spr : SpriteState :=
        { value := value,
          anchor := (anchor.orElse (fun _ => cd.anchor)),
          z := cd.z.getD 0,
          floatAmp := (fa.orElse (fun _ => cd.floatAmp)),
          floatSpeed := (fs.orElse (fun _ => cd.floatSpeed)) }
      { s with sprites := alistInsert ident spr s.sprites }

/-- Modelled from the spec: the effect of executing one command on the
interpreter state (§4.3 command dispatch), for the commands the claims
exercise.  User-facing text (Say, Notify, Choice prompt and option
labels) is interpolated against the current variable store at this
moment. -/
def execCmd (c : Cmd) (s : RState) : RState :=
  match c with
  | .label _ => s
  | .say sp tx =>
      { s with currentSay := some (sp, interpolate s.vars tx) }
  | .jump t => jump s t
  | .ifJump name op v t =>
      if eval_condition s.vars name op v then jump s t else s
  | .choice prompt opts tmo td =>
      { s with
        currentChoice := some
          { prompt := interpolate s.vars prompt,
            options := opts.map (fun o => (interpolate s.vars o.1, o.2)) },
        choiceSelected := some 0,
        choiceTimeoutMs := tmo.map (fun q => q * 1000),
        choiceTimeoutDefault := td,
        choiceTimerStartMs := tmo.map (fun _ => s.nowMs) }
  | .notify tx secs =>
      { s with notifyMessage := some (interpolate s.vars tx),
               notifyUntilMs := some (s.nowMs + secs * 1000) }
  | .setVar name v =>
      { s with vars := alistInsert name (resolveValue s.vars v) s.vars }
  | .addVar name amt =>
      let newVal : Value :=
        match alistLookup name s.vars with
        | some (.num q) => .num (q + amt)
        | _ => .num amt
      { s with vars := alistInsert name newVal s.vars }
  | .showChar i e => apply_show_char s i e none none none
  | .mapPoi l p t =>
      { s with mapPoints := s.mapPoints ++ [{ label := l, target := t, pos := p }] }
  | .mapShow v =>
      { s with mapActive := true, mapImage := some v }
  | .hotspotAdd n x y w h t =>
      { s with hotspots := s.hotspots ++ [{ name := n, shape := .rect x y w h, target := t }] }
  | .hotspotPoly n pts t =>
      { s with hotspots := s.hotspots ++ [{ name := n, shape := .poly pts, target := t }] }
  | .cacheClear k p => apply_cache_clear k p s
  | .callScript _ _ => s

/-- Modelled from the spec: execute the command at the current index
(after advancing the index past it), if any (§4.3 per-frame loop; one
dispatch step of `_step`). -/
def step (s : RState) : RState :=
  match s.commands.get? s.index with
  | some c => execCmd c { s with index := s.index + 1 }
  | none => s

/-- Elapsed time of the in-progress choice timeout, if a timer runs. -/
def choiceElapsed (s : RState) : Option ℚ :=
  s.choiceTimerStartMs.map (fun t => s.nowMs - t)

/-- Coherence of choice bookkeeping in a reachable state: the
selected index and timeout fields are only populated while a choice
is in progress. -/
def choiceCoherent (s : RState) : Prop :=
  s.currentChoice = none →
    s.choiceSelected = none ∧ s.choiceTimeoutMs = none ∧
      s.choiceTimeoutDefault = none ∧ s.choiceTimerStartMs = none

/-- Modelled from the spec: capture the full mutable state as a save
payload (§6 "Save file"): `script_path` is stored relative to the
project root, and an in-progress choice is stored with its selected
index, timeout duration/default and the elapsed timeout time. -/
def snapshot (s : RState) : SaveData :=
  { saveVersion := 2,
    scriptPath := s.currentScriptPath.drop s.projectRoot.length,
    index := s.index,
    background := s.background,
    vars := s.vars,
    sprites := s.sprites,
    inventory := s.inventory,
    inventoryPage := s.inventoryPage,
    inventoryOpen := s.inventoryOpen,
    meters := s.meters,
    hudButtons := s.hudButtons,
    music := s.music,
    waiting := s.currentChoice.map (fun ch =>
      { prompt := ch.prompt,
        options := ch.options,
        selected := s.choiceSelected,
        timeoutMs := s.choiceTimeoutMs,
        timeoutDefault := s.choiceTimeoutDefault,
        timeoutElapsedMs := choiceElapsed s }),
    characters := s.characters,
    hotspots := s.hotspots,
    hotspotDebug := s.hotspotDebug,
    mapActive := s.mapActive,
    mapImage := s.mapImage,
    mapPoints := s.mapPoints,
    camera := s.camera }

/-- Modelled from the spec: restore a save payload into the runtime
(§4.3 Save/Load, `test_apply_save_data_restores_script_ui_and_choice_timeout`):
the script path is re-resolved against the project root and the script
re-loaded through `loader`; every mutable state field is restored,
and an in-progress choice resumes at its saved selected index with its
timeout timer backdated by the saved elapsed time. -/
def apply_save_data (loader : List String → List Cmd × List (String × ℕ))
    (d : SaveData) (s : RState) : RState :=
  let path := s.projectRoot ++ d.scriptPath
  let prog := loader path
  { s with
    currentScriptPath := path,
    commands := prog.1,
    labels := prog.2,
    index := d.index,
    background := d.background,
    vars := d.vars,
    sprites := d.sprites,
    inventory := d.inventory,
    inventoryPage := d.inventoryPage,
    inventoryOpen := d.inventoryOpen,
    meters := d.meters,
    hudButtons := d.hudButtons,
    music := d.music,
    currentChoice := d.waiting.map (fun w =>
      { prompt := w.prompt, options := w.options }),
    choiceSelected := d.waiting.bind (fun w => w.selected),
    choiceTimeoutMs := d.waiting.bind (fun w => w.timeoutMs),
    choiceTimeoutDefault := d.waiting.bind (fun w => w.timeoutDefault),
    choiceTimerStartMs := d.waiting.bind (fun w =>
      w.timeoutElapsedMs.map (fun e => s.nowMs - e)),
    characters := d.characters,
    hotspots := d.hotspots,
    hotspotDebug := d.hotspotDebug,
    mapActive := d.mapActive,
    mapImage := d.mapImage,
    mapPoints := d.mapPoints,
    camera := d.camera }

/-- Modelled from the spec: quick-save — write the snapshot of the
full mutable state to the quick-save slot (§4.3 Save/Load). -/
def save_quick (s : RState) : RState :=
  { s with saveFile := .valid (snapshot s) }

/-- Modelled from the spec: quick-load — restore from the quick-save
slot; missing or malformed/unparseable content is ignored and the
prior state is preserved untouched (§4.3 Save/Load, §7). -/
def load_quick (loader : List String → List Cmd × List (String × ℕ))
    (s : RState) : RState :=
  match s.saveFile with
  | .valid d => apply_save_data loader d s
  | _ => s

/-- Concrete character definition mirroring the regression test
`test_apply_show_char_uses_defaults_and_fallback`. -/
def aliceDef : CharacterDef :=
  { ident := "chars.alice",
    displayName := some "Alice",
    sprites := [("default", "alice/default.png"), ("happy", "alice/happy.png")],
    anchor := some "right bottom",
    z := some 3,
    floatAmp := some 4,
    floatSpeed := some 1 }

/-- Concrete runtime state holding the `chars.alice` definition. -/
def showCharState : RState :=
  { characters := [("chars.alice", aliceDef)] }

/-- Concrete runtime state mirroring
`test_set_say_choice_notify_support_variable_interpolation`: variables
already set, interpolated Say/Notify/Choice commands queued. -/
def interpState : RState :=
  { commands :=
      [Cmd.say "narrator" "coins=${copy}",
       Cmd.notify "Hi ${name}" 1,
       Cmd.choice "coins=${coins}" [("Talk to ${name}", "x")] none none],
    vars := [("copy", Value.num 7), ("name", Value.str "mia"), ("coins", Value.num 7)],
    index := 0 }

/-- Concrete runtime state mirroring
`test_polygon_hotspot_respects_camera_transform`: one polygon hotspot
targeting label `poly`, with a non-identity camera
(pan (120, -40), zoom 1.5). -/
def polyState : RState :=
  { commands := [Cmd.label "poly", Cmd.notify "Poly hit" (1/2)],
    labels := [("poly", 0)],
    index := 2,
    hotspots :=
      [{ name := "poly_hs",
         shape := .poly [(500, 280), (760, 280), (740, 520), (480, 510)],
         target := "poly" }],
    camera := { panX := 120, panY := -40, zoom := 3/2 } }

/-- Concrete runtime state with an in-progress timed choice and the
full complement of mutable state, mirroring
`test_apply_save_data_restores_script_ui_and_choice_timeout`. -/
def saveState : RState :=
  { commands := [Cmd.label "start"],
    labels := [("start", 0)],
    index := 1,
    vars := [("coins", Value.num 7)],
    background := { kind := "color", value := "#112233", floatAmp := some 2, floatSpeed := some (2/5) },
    sprites := [("hero", { value := "#ffffff" })],
    inventory := [("key", { name := "Key", desc := "Door key" })],
    inventoryOpen := true,
    meters := [("trust", { label := "Trust", minVal := 0, maxVal := 100, value := 42, color := "#44ff99" })],
    hudButtons := [{ name := "menu", style := "text", text := some "Menu",
                     target := "::start", rect := (10, 12, 90, 30) }],
    music := some ("bgm.ogg", true),
    currentChoice := some { prompt := "Select", options := [("Go", "start"), ("Quit", "end")] },
    choiceSelected := some 1,
    choiceTimeoutMs := some 8000,
    choiceTimeoutDefault := some 2,
    choiceTimerStartMs := some 500,
    mapActive := true,
    mapImage := some "world_map.png",
    mapPoints := [{ label := "Town", target := "town", pos := (100, 120),
                    points := [(80, 110), (120, 110), (120, 140)] }],
    camera := { panX := 7/2, panY := -2, zoom := 5/4 },
    projectRoot := ["root"],
    currentScriptPath := ["root", "chapters", "scene.vn"],
    nowMs := 1000 }

/-- Concrete script loader standing in for `_load_script` in the save
round-trip witness (the patched loader of
`test_apply_save_data_restores_script_ui_and_choice_timeout`). -/
def quickLoader : List String → List Cmd × List (String × ℕ) :=
  fun _ => ([Cmd.label "start"], [("start", 0)])

/-- Concrete included-file commands mirroring
`test_include_alias_namespaces_map_poi_targets` (file `map.vn`): local
and `::`-global poi targets plus a sibling label. -/
def mapIncCmds : List Cmd :=
  [Cmd.label "map_demo",
   Cmd.mapShow "world.png",
   Cmd.mapPoi "Local" (100, 100) "local_end",
   Cmd.mapPoi "Global" (120, 120) "::end",
   Cmd.label "local_end",
   Cmd.say "narrator" "done"]

/-- Concrete including-file body mirroring the same test (file
`main.vn`): jumps into the alias and defines the root label `end`. -/
def mainBody : List Stmt :=
  [Stmt.label "start",
   Stmt.jump "m.map_demo",
   Stmt.label "end",
   Stmt.say "narrator" "global"]

/-! Helper lemmas about the compiler, label tables and association
lists, shared by the claim theorems below. -/

theorem compileStmts_append (n : ℕ) (xs ys : List Stmt) :
    compileStmts n (xs ++ ys) =
      ((compileStmts n xs).1 ++ (compileStmts (compileStmts n xs).2 ys).1,
       (compileStmts (compileStmts n xs).2 ys).2) := by
  induction xs generalizing n with
  | nil => simp [compileStmts]
  | cons s rest ih => simp [compileStmts, ih, List.append_assoc]

theorem labelTableFrom_append (i : ℕ) (xs ys : List Cmd) :
    labelTableFrom i (xs ++ ys) =
      labelTableFrom i xs ++ labelTableFrom (i + xs.length) ys := by
  induction xs generalizing i with
  | nil => simp [labelTableFrom]
  | cons c rest ih =>
      cases hc : cmdLabel c <;>
        simp [labelTableFrom, hc, ih, Nat.add_assoc, Nat.add_comm 1]

theorem keys_labelTableFrom (i : ℕ) (xs : List Cmd) :
    (labelTableFrom i xs).map Prod.fst = labelNames xs := by
  induction xs generalizing i with
  | nil => simp [labelTableFrom, labelNames]
  | cons c rest ih =>
      cases hc : cmdLabel c <;>
        simp [labelTableFrom, labelNames, List.filterMap_cons, hc, ih (i + 1)]

theorem alistLookup_append {α : Type} (key : String) (xs ys : List (String × α)) :
    alistLookup key (xs ++ ys) =
      (alistLookup key xs).orElse (fun _ => alistLookup key ys) := by
  induction xs with
  | nil => simp [alistLookup]
  | cons p rest ih =>
      obtain ⟨k, v⟩ := p
      by_cases h : k == key <;> simp [alistLookup, h, ih]

theorem alistLookup_eq_none {α : Type} (key : String) (xs : List (String × α))
    (h : key ∉ xs.map Prod.fst) : alistLookup key xs = none := by
  induction xs with
  | nil => rfl
  | cons p rest ih =>
      obtain ⟨k, v⟩ := p
      simp only [List.map_cons, List.mem_cons] at h
      push_neg at h
      have hk : (k == key) = false := by
        simp [beq_iff_eq]
        exact fun hkk => h.1 hkk.symm
      simp [alistLookup, hk, ih h.2]

theorem alistLookup_insert_self {α : Type} (key : String) (v : α)
    (l : List (String × α)) : alistLookup key (alistInsert key v l) = some v := by
  induction l with
  | nil => simp [alistInsert, alistLookup]
  | cons p rest ih =>
      obtain ⟨k, w⟩ := p
      by_cases h : k == key <;> simp [alistInsert, alistLookup, h, ih]

theorem labelTableFrom_cons_none (i : ℕ) (c : Cmd) (rest : List Cmd)
    (h : cmdLabel c = none) :
    labelTableFrom i (c :: rest) = labelTableFrom (i + 1) rest := by
  simp [labelTableFrom, h]

theorem labelTableFrom_cons_some (i : ℕ) (c : Cmd) (rest : List Cmd)
    (name : String) (h : cmdLabel c = some name) :
    labelTableFrom i (c :: rest) = (name, i) :: labelTableFrom (i + 1) rest := by
  simp [labelTableFrom, h]

theorem string_append_left_cancel (a x y : String) (h : a ++ x = a ++ y) : x = y := by
  have hd := congrArg String.data h
  rw [String.data_append, String.data_append] at hd
  exact String.ext (List.append_cancel_left hd)

theorem labelTableFrom_map_renameCmd (al : String) (i : ℕ) (cmds : List Cmd) :
    labelTableFrom i (cmds.map (renameCmd al))
      = (labelTableFrom i cmds).map (fun p => (al ++ "." ++ p.1, p.2)) := by
  induction cmds generalizing i with
  | nil => simp [labelTableFrom]
  | cons c rest ih => cases c <;> simp [renameCmd, cmdLabel, labelTableFrom, ih]

theorem alistLookup_map_prefix {α : Type} (a key : String) (xs : List (String × α)) :
    alistLookup (a ++ key) (xs.map (fun p => (a ++ p.1, p.2))) = alistLookup key xs := by
  induction xs with
  | nil => rfl
  | cons p rest ih =>
      obtain ⟨k, v⟩ := p
      by_cases h : k = key
      · subst h
        simp [alistLookup]
      · have h2 : (a ++ k == a ++ key) = false := by
          simp only [beq_eq_false_iff_ne, ne_eq]
          exact fun he => h (string_append_left_cancel a k key he)
        have h3 : (k == key) = false := by
          simp only [beq_eq_false_iff_ne, ne_eq]
          exact h
        simp [alistLookup, h2, h3, ih]

theorem evalNum_inv (op : CmpOp) (a b : ℚ) :
    op.inv.evalNum a b = !(op.evalNum a b) := by
  cases op <;>
    · simp only [CmpOp.inv, CmpOp.evalNum]
      rw [← decide_not]
      try simp [decide_eq_decide, not_lt, not_le, not_not]

/-- Claim C2: for every block-form check statement
`check <var> <op> <value> { <body> };` (in any statement context), the
parser emits exactly one gating IfJump whose operator is the logical
inverse of the written operator (inverse in the semantic sense proved
in the last conjunct), whose target is the freshly generated label
`__check_skip_N` (N the current fresh-label counter); the body's
commands are emitted in place directly after the gate, the skip Label
command is placed immediately after them, and the skip label is
present in the resulting Program's label table at the index of that
Label command (provided the surrounding code does not itself define a
label of that reserved name). -/
theorem check_block_emits_inverted_gate_and_skip_label
    (pre post body : List Stmt) (name : String) (op : CmpOp) (v : Value) :
    (parseStmts (pre ++ Stmt.checkBlock name op v body :: post)).commands =
        (compileStmts 0 pre).1
          ++ (Cmd.ifJump name op.inv v (checkSkipLabel (compileStmts 0 pre).2)
                :: (compileStmts ((compileStmts 0 pre).2 + 1) body).1
              ++ [Cmd.label (checkSkipLabel (compileStmts 0 pre).2)])
          ++ (compileStmts (compileStmts ((compileStmts 0 pre).2 + 1) body).2 post).1
      ∧ (checkSkipLabel (compileStmts 0 pre).2 ∉ labelNames (compileStmts 0 pre).1 →
          checkSkipLabel (compileStmts 0 pre).2
              ∉ labelNames (compileStmts ((compileStmts 0 pre).2 + 1) body).1 →
          alistLookup (checkSkipLabel (compileStmts 0 pre).2)
              (parseStmts (pre ++ Stmt.checkBlock name op v body :: post)).labels
            = some ((compileStmts 0 pre).1.length + 1
                + (compileStmts ((compileStmts 0 pre).2 + 1) body).1.length))
      ∧ (∀ a b : ℚ, op.inv.evalNum a b = !(op.evalNum a b)) := by
  have hcmds : (parseStmts (pre ++ Stmt.checkBlock name op v body :: post)).commands =
      (compileStmts 0 pre).1
        ++ ((Cmd.ifJump name op.inv v (checkSkipLabel (compileStmts 0 pre).2)
              :: (compileStmts ((compileStmts 0 pre).2 + 1) body).1
            ++ [Cmd.label (checkSkipLabel (compileStmts 0 pre).2)])
          ++ (compileStmts (compileStmts ((compileStmts 0 pre).2 + 1) body).2 post).1) := by
    simp only [parseStmts, compileStmts_append, compileStmts, compileStmt]
  refine ⟨by rw [hcmds]; simp [List.append_assoc], ?_, fun a b => evalNum_inv op a b⟩
  intro h1 h2
  have hlab : (parseStmts (pre ++ Stmt.checkBlock name op v body :: post)).labels =
      labelTable ((compileStmts 0 pre).1
        ++ ((Cmd.ifJump name op.inv v (checkSkipLabel (compileStmts 0 pre).2)
              :: (compileStmts ((compileStmts 0 pre).2 + 1) body).1
            ++ [Cmd.label (checkSkipLabel (compileStmts 0 pre).2)])
          ++ (compileStmts (compileStmts ((compileStmts 0 pre).2 + 1) body).2 post).1)) := by
    simp only [parseStmts, compileStmts_append, compileStmts, compileStmt]
  rw [hlab]
  rw [labelTable, labelTableFrom_append, alistLookup_append]
  rw [alistLookup_eq_none _ _ (by rw [keys_labelTableFrom]; exact h1)]
  have hmid : labelTableFrom (0 + (compileStmts 0 pre).1.length)
      ((Cmd.ifJump name op.inv v (checkSkipLabel (compileStmts 0 pre).2)
          :: (compileStmts ((compileStmts 0 pre).2 + 1) body).1
        ++ [Cmd.label (checkSkipLabel (compileStmts 0 pre).2)])
        ++ (compileStmts (compileStmts ((compileStmts 0 pre).2 + 1) body).2 post).1) =
      labelTableFrom (0 + (compileStmts 0 pre).1.length + 1)
          (compileStmts ((compileStmts 0 pre).2 + 1) body).1
        ++ ((checkSkipLabel (compileStmts 0 pre).2,
              0 + (compileStmts 0 pre).1.length + 1
                + (compileStmts ((compileStmts 0 pre).2 + 1) body).1.length)
          :: labelTableFrom (0 + (compileStmts 0 pre).1.length + 1
                + (compileStmts ((compileStmts 0 pre).2 + 1) body).1.length + 1)
              (compileStmts (compileStmts ((compileStmts 0 pre).2 + 1) body).2 post).1) := by
    rw [List.cons_append, List.cons_append,
      labelTableFrom_cons_none _
        (Cmd.ifJump name op.inv v (checkSkipLabel (compileStmts 0 pre).2)) _ rfl,
      List.append_assoc, labelTableFrom_append, List.singleton_append,
      labelTableFrom_cons_some _
        (Cmd.label (checkSkipLabel (compileStmts 0 pre).2)) _
        (checkSkipLabel (compileStmts 0 pre).2) rfl]
  rw [hmid, alistLookup_append]
  rw [alistLookup_eq_none _ _ (by rw [keys_labelTableFrom]; exact h2)]
  simp [alistLookup]

/-- Witness for C2 at the regression-test script
(`test_check_block_injects_skip_label_and_inverted_condition`):
`label start:` then `check visits > 1 { narrator "inside"; };` then
`narrator "after";` — the gate is IfJump with op `<=` targeting
`__check_skip_0`, the skip Label follows the body immediately, and the
skip label maps to index 3 in the label table. -/
theorem check_block_emits_inverted_gate_and_skip_label_witness :
    (parseStmts [Stmt.label "start",
        Stmt.checkBlock "visits" CmpOp.gt (Value.num 1) [Stmt.say "narrator" "inside"],
        Stmt.say "narrator" "after"]).commands =
        [Cmd.label "start",
         Cmd.ifJump "visits" CmpOp.le (Value.num 1) "__check_skip_0",
         Cmd.say "narrator" "inside",
         Cmd.label "__check_skip_0",
         Cmd.say "narrator" "after"]
      ∧ alistLookup "__check_skip_0"
          (parseStmts [Stmt.label "start",
            Stmt.checkBlock "visits" CmpOp.gt (Value.num 1) [Stmt.say "narrator" "inside"],
            Stmt.say "narrator" "after"]).labels = some 3 := by
  have h := check_block_emits_inverted_gate_and_skip_label
    [Stmt.label "start"] [Stmt.say "narrator" "after"]
    [Stmt.say "narrator" "inside"] "visits" CmpOp.gt (Value.num 1)
  refine ⟨?_, ?_⟩
  · have h1 := h.1
    simpa using h1
  · have h2 := h.2.1 (by decide) (by decide)
    simpa using h2

/-- Counterexample to claim C9 as stated: parsing `cache clear scene;`
does not produce a CacheClear command with kind "scene" — it produces
kind "runtime" (pinned by `test_cache_commands`, which asserts the
parsed kinds are ["images", "scripts", "runtime", "runtime",
"script"]). -/
theorem cache_clear_scene_kind_is_runtime :
    (compileStmt 0 (Stmt.cacheClearStmt "scene" none)).1 = [Cmd.cacheClear "runtime" none]
    ∧ ¬ (compileStmt 0 (Stmt.cacheClearStmt "scene" none)).1
          = [Cmd.cacheClear "scene" none] := by
  exact ⟨rfl, by decide⟩

/-- Claim C9 (amended): the cache-clear directive accepts the five
surface spellings images, scripts, runtime, scene, and script(path),
but they map to only four distinct kind values — `cache clear scene;`
produces a CacheClear whose kind is "runtime", identical to the kind
produced by `cache clear runtime;` (`test_cache_commands`). -/
theorem cache_clear_directive_kinds :
    (compileStmt 0 (Stmt.cacheClearStmt "images" none)).1 = [Cmd.cacheClear "images" none]
  ∧ (compileStmt 0 (Stmt.cacheClearStmt "scripts" none)).1 = [Cmd.cacheClear "scripts" none]
  ∧ (compileStmt 0 (Stmt.cacheClearStmt "runtime" none)).1 = [Cmd.cacheClear "runtime" none]
  ∧ (compileStmt 0 (Stmt.cacheClearStmt "scene" none)).1 = [Cmd.cacheClear "runtime" none]
  ∧ (compileStmt 0 (Stmt.cacheClearStmt "script" (some "chapters/intro.vn"))).1
      = [Cmd.cacheClear "script" (some "chapters/intro.vn")]
  ∧ (compileStmt 0 (Stmt.cacheClearStmt "scene" none)).1
      = (compileStmt 0 (Stmt.cacheClearStmt "runtime" none)).1 :=
  ⟨rfl, rfl, rfl, rfl, rfl, rfl⟩

/-- Claim C5: for every prior runtime state, `CacheClear(kind="runtime")`
resets the camera to pan (0,0) and zoom 1, resets the background to
kind "color" with value "#000000", empties the sprite table, the
hotspot table and the script-parse cache, clears video, dialogue,
notification and pending-wait state — and leaves the variable store
untouched. -/
theorem cache_clear_runtime_soft_reset (s : RState) :
    (apply_cache_clear "runtime" none s).camera = { panX := 0, panY := 0, zoom := 1 }
  ∧ (apply_cache_clear "runtime" none s).background =
      { kind := "color", value := "#000000", floatAmp := none, floatSpeed := none }
  ∧ (apply_cache_clear "runtime" none s).sprites = []
  ∧ (apply_cache_clear "runtime" none s).hotspots = []
  ∧ (apply_cache_clear "runtime" none s).scriptCache = []
  ∧ (apply_cache_clear "runtime" none s).videoPlayer = none
  ∧ (apply_cache_clear "runtime" none s).videoSurface = none
  ∧ (apply_cache_clear "runtime" none s).videoPath = none
  ∧ (apply_cache_clear "runtime" none s).currentSay = none
  ∧ (apply_cache_clear "runtime" none s).notifyMessage = none
  ∧ (apply_cache_clear "runtime" none s).notifyUntilMs = none
  ∧ (apply_cache_clear "runtime" none s).waitUntilMs = none
  ∧ (apply_cache_clear "runtime" none s).vars = s.vars :=
  ⟨rfl, rfl, rfl, rfl, rfl, rfl, rfl, rfl, rfl, rfl, rfl, rfl, rfl⟩

/-- Claim C7: for every runtime state whose quick-save slot holds
malformed/unparseable content, `load_quick` is a no-op — it raises no
error and the entire prior state, command index included, is preserved
unchanged. -/
theorem load_quick_malformed_is_noop
    (loader : List String → List Cmd × List (String × ℕ)) (s : RState) (raw : String)
    (h : s.saveFile = .malformed raw) :
    load_quick loader s = s := by
  unfold load_quick
  rw [h]

/-- Witness for C7 at the regression-test scenario
(`test_load_quick_ignores_malformed_json`): the save slot holds the
unparseable text `{`, the command index is 5, and `load_quick` leaves
the whole state (index included) unchanged. -/
theorem load_quick_malformed_is_noop_witness :
    load_quick (fun _ => ([], []))
        { index := 5, vars := [("coins", Value.num 7)], saveFile := .malformed "\x7b" }
      = { index := 5, vars := [("coins", Value.num 7)], saveFile := .malformed "\x7b" } :=
  load_quick_malformed_is_noop (fun _ => ([], [])) _ "\x7b" rfl

/-- Claim C10: for every ShowChar naming a character whose sprite map
does not contain the requested expression but does contain a "default"
entry, the interpreter installs a sprite whose value is the sprite
registered under "default" (instead of failing or leaving the sprite
table unchanged). -/
theorem show_char_falls_back_to_default_sprite
    (s : RState) (ident expr : String) (cd : CharacterDef) (d : String)
    (hc : alistLookup ident s.characters = some cd)
    (he : alistLookup expr cd.sprites = none)
    (hd : alistLookup "default" cd.sprites = some d) :
    ∃ spr : SpriteState,
      alistLookup ident (apply_show_char s ident expr none none none).sprites = some spr
        ∧ spr.value = d := by
  have hstep : apply_show_char s ident expr none none none
      = { s with
          sprites :=
            alistInsert ident
              ({ value := d, anchor := cd.anchor, z := cd.z.getD 0,
                 floatAmp := cd.floatAmp, floatSpeed := cd.floatSpeed } : SpriteState)
              s.sprites } := by
    unfold apply_show_char
    rw [hc]
    simp [he, hd, Option.orElse]
  rw [hstep]
  exact ⟨_, alistLookup_insert_self _ _ _, rfl⟩

/-- Witness for C10 at the regression-test scenario
(`test_apply_show_char_uses_defaults_and_fallback`): showing
`chars.alice` with the missing expression `missing` installs the
sprite registered under "default", `alice/default.png`. -/
theorem show_char_falls_back_to_default_sprite_witness :
    ∃ spr : SpriteState,
      alistLookup "chars.alice"
          (apply_show_char showCharState "chars.alice" "missing" none none none).sprites
        = some spr ∧ spr.value = "alice/default.png" :=
  show_char_falls_back_to_default_sprite showCharState "chars.alice" "missing"
    aliceDef "alice/default.png" rfl rfl rfl

/-- Claim C6: Say, Notify and Choice resolve `${name}`/`$name`
placeholders against the variable values current at the moment the
command executes, not at parse time: the stepped output is
`interpolate` applied to the state's current variable store, and
executing the same command under a different variable store yields the
text resolved against that store. -/
theorem interpolation_resolves_at_execution_time (s : RState) :
    (∀ sp tx, s.commands.get? s.index = some (.say sp tx) →
        (step s).currentSay = some (sp, interpolate s.vars tx))
  ∧ (∀ tx secs, s.commands.get? s.index = some (.notify tx secs) →
        (step s).notifyMessage = some (interpolate s.vars tx))
  ∧ (∀ prompt opts tmo td, s.commands.get? s.index = some (.choice prompt opts tmo td) →
        (step s).currentChoice = some
          { prompt := interpolate s.vars prompt,
            options := opts.map (fun o => (interpolate s.vars o.1, o.2)) })
  ∧ (∀ sp tx vars2, s.commands.get? s.index = some (.say sp tx) →
        (step { s with vars := vars2 }).currentSay = some (sp, interpolate vars2 tx)) := by
  refine ⟨?_, ?_, ?_, ?_⟩
  · intro sp tx h
    unfold step
    rw [h]
    rfl
  · intro tx secs h
    unfold step
    rw [h]
    rfl
  · intro prompt opts tmo td h
    unfold step
    rw [h]
    rfl
  · intro sp tx vars2 h
    unfold step
    have h2 : ({ s with vars := vars2 } : RState).commands.get?
        ({ s with vars := vars2 } : RState).index = some (.say sp tx) := h
    rw [h2]
    rfl

/-- Witness for C6 at the regression-test scenario
(`test_set_say_choice_notify_support_variable_interpolation`): with
copy=7, name="mia", coins=7 current at execution, the Say resolves to
"coins=7", the Notify to "Hi mia", and the Choice prompt/option to
"coins=7" / "Talk to mia". -/
theorem interpolation_resolves_at_execution_time_witness :
    (step interpState).currentSay = some ("narrator", "coins=7")
  ∧ (step { interpState with index := 1 }).notifyMessage = some "Hi mia"
  ∧ (step { interpState with index := 2 }).currentChoice
      = some { prompt := "coins=7", options := [("Talk to mia", "x")] } := by
  refine ⟨?_, ?_, ?_⟩
  · rw [(interpolation_resolves_at_execution_time interpState).1
      "narrator" "coins=${copy}" rfl]
    decide
  · rw [(interpolation_resolves_at_execution_time { interpState with index := 1 }).2.1
      "Hi ${name}" 1 rfl]
    decide
  · rw [(interpolation_resolves_at_execution_time { interpState with index := 2 }).2.2.1
      "coins=${coins}" [("Talk to ${name}", "x")] none none rfl]
    decide

/-- Claim C4: for a polygon hotspot defined in background-world
coordinates under an active camera, a screen-space click triggers the
hotspot's jump if and only if the click transformed to world space by
the inverse of the active camera transform falls inside the polygon;
the second conjunct certifies that the screen-to-world map used by the
click handler is the inverse of the forward (rendering) transform. -/
theorem polygon_hotspot_hit_iff_inverse_camera_point_in_poly
    (s : RState) (click : ℚ × ℚ) (nm tgt : String) (pts : List (ℚ × ℚ)) (i : ℕ)
    (hh : s.hotspots = [{ name := nm, shape := .poly pts, target := tgt }])
    (hz : s.camera.zoom ≠ 0)
    (hi : alistLookup (resolveTargetName tgt) s.labels = some i) :
    ((handle_hotspot_click s click).1 = true ↔
        pointInPoly pts (screen_to_bg_world s.camera click) = true)
  ∧ (∀ p : ℚ × ℚ, screen_to_bg_world s.camera (bg_world_to_screen s.camera p) = p)
  ∧ ((handle_hotspot_click s click).1 = true →
        (handle_hotspot_click s click).2.index = i) := by
  have hinv : ∀ p : ℚ × ℚ, screen_to_bg_world s.camera (bg_world_to_screen s.camera p) = p := by
    intro p
    unfold screen_to_bg_world bg_world_to_screen
    have h1 : (p.1 - s.camera.panX) * s.camera.zoom / s.camera.zoom + s.camera.panX = p.1 := by
      rw [mul_div_assoc, div_self hz, mul_one]
      ring
    have h2 : (p.2 - s.camera.panY) * s.camera.zoom / s.camera.zoom + s.camera.panY = p.2 := by
      rw [mul_div_assoc, div_self hz, mul_one]
      ring
    rw [h1, h2]
  refine ⟨?_, hinv, ?_⟩ <;>
    · unfold handle_hotspot_click
      rw [hh]
      cases hp : pointInPoly pts (screen_to_bg_world s.camera click) <;>
        simp [List.find?, hotspotContains, hp, jump, hi]

/-- Witness for C4 at the regression-test scenario
(`test_polygon_hotspot_respects_camera_transform`): under camera
pan (120, -40), zoom 1.5, the screen point (750, 645) — the forward
image of world point (620, 390) — hits the polygon hotspot and jumps
to label `poly` at index 0. -/
theorem polygon_hotspot_hit_iff_inverse_camera_point_in_poly_witness :
    (handle_hotspot_click polyState (750, 645)).1 = true
  ∧ (handle_hotspot_click polyState (750, 645)).2.index = 0
  ∧ bg_world_to_screen polyState.camera (620, 390) = (750, 645) := by
  have hz : polyState.camera.zoom ≠ 0 := by
    show (3/2 : ℚ) ≠ 0
    norm_num
  have hi : alistLookup (resolveTargetName "poly") polyState.labels = some 0 := by decide
  have h := polygon_hotspot_hit_iff_inverse_camera_point_in_poly polyState (750, 645)
    "poly_hs" "poly" [(500, 280), (760, 280), (740, 520), (480, 510)] 0
    rfl hz hi
  have hw : screen_to_bg_world polyState.camera (750, 645) = (620, 390) := by
    show ((750 : ℚ) / (3/2) + 120, (645 : ℚ) / (3/2) + -40) = ((620 : ℚ), (390 : ℚ))
    norm_num
  have e1 : edgeCrossing (620, 390) (500, 280) (760, 280) = false := by
    unfold edgeCrossing
    norm_num
  have e2 : edgeCrossing (620, 390) (760, 280) (740, 520) = true := by
    unfold edgeCrossing
    norm_num
  have e3 : edgeCrossing (620, 390) (740, 520) (480, 510) = false := by
    unfold edgeCrossing
    norm_num
  have e4 : edgeCrossing (620, 390) (480, 510) (500, 280) = false := by
    unfold edgeCrossing
    norm_num
  have hin : pointInPoly [(500, 280), (760, 280), (740, 520), (480, 510)]
      (screen_to_bg_world polyState.camera (750, 645)) = true := by
    rw [hw]
    show pointInPoly [(500, 280), (760, 280), (740, 520), (480, 510)] (620, 390) = true
    unfold pointInPoly polyEdges
    simp [List.zip, List.zipWith, e1, e2, e3, e4]
  have hs : bg_world_to_screen polyState.camera (620, 390) = (750, 645) := by
    show (((620 : ℚ) - 120) * (3/2), ((390 : ℚ) - -40) * (3/2)) = ((750 : ℚ), (645 : ℚ))
    norm_num
  exact ⟨h.1.mpr hin, h.2.2 (h.1.mpr hin), hs⟩

/-- Claim C3: include-with-alias namespacing.  (1) every label of the
included file appears in the including Program's label table under the
`<alias>.` prefix (at its included-file index, the included commands
being merged first); (2) every jump/poi target of an included command
is rewritten by `qualifyTarget`; (3) a target without the `::` prefix
becomes alias-relative `<alias>.<target>`; (4) a `::`-prefixed target
is stripped to the bare root name; (5) looking up any alias-free name
in the merged table bypasses all included (alias-prefixed) labels and
resolves among the including file's own labels — the root
namespace. -/
theorem include_alias_merges_labels_and_rewrites_targets
    (al : String) (incCmds : List Cmd) (body : List Stmt) :
    (∀ l i, alistLookup l (labelTable incCmds) = some i →
        alistLookup (al ++ "." ++ l) (parseWithInclude al incCmds body).labels = some i)
  ∧ (∀ c, cmdTargets (renameCmd al c) = (cmdTargets c).map (qualifyTarget al))
  ∧ (∀ t, isGlobalTarget t = false → qualifyTarget al t = al ++ "." ++ t)
  ∧ (∀ k, qualifyTarget al ("::" ++ k) = k)
  ∧ (∀ l, (∀ k, l ≠ al ++ "." ++ k) →
        alistLookup l (parseWithInclude al incCmds body).labels
          = alistLookup l (labelTableFrom incCmds.length (compileStmts 0 body).1)) := by
  refine ⟨?_, ?_, ?_, ?_, ?_⟩
  · intro l i hl
    show alistLookup (al ++ "." ++ l)
        (labelTable (incCmds.map (renameCmd al) ++ (compileStmts 0 body).1)) = some i
    rw [labelTable, labelTableFrom_append, alistLookup_append,
      labelTableFrom_map_renameCmd, alistLookup_map_prefix]
    rw [labelTable] at hl
    rw [hl]
    rfl
  · intro c
    cases c <;> simp [renameCmd, cmdTargets]
  · intro t h
    simp [qualifyTarget, h]
  · intro k
    have hdata : ("::" ++ k).data = ':' :: ':' :: k.data := by
      rw [String.data_append]
      rfl
    have hg : isGlobalTarget ("::" ++ k) = true := by
      rw [isGlobalTarget, hdata]
      show ([':', ':'] : List Char).isPrefixOf (':' :: ':' :: k.data) = true
      simp [List.isPrefixOf]
    rw [qualifyTarget, if_pos (by rw [hg]), stripGlobal, hdata]
    rfl
  · intro l hroot
    show alistLookup l
        (labelTable (incCmds.map (renameCmd al) ++ (compileStmts 0 body).1))
      = alistLookup l (labelTableFrom incCmds.length (compileStmts 0 body).1)
    rw [labelTable, labelTableFrom_append, alistLookup_append,
      labelTableFrom_map_renameCmd]
    rw [alistLookup_eq_none]
    · simp [List.length_map]
    · simp only [List.map_map, List.mem_map, Function.comp]
      rintro ⟨⟨k, j⟩, hk, hkey⟩
      exact hroot k hkey.symm

/-- Witness for C3 at the regression-test scenario
(`test_include_alias_namespaces_map_poi_targets`): including `map.vn`
as `m`, the labels `map_demo`/`local_end` appear as `m.map_demo` (index
0) and `m.local_end` (index 4); the local poi target `local_end` is
rewritten to `m.local_end`; the global poi target `::end` is stripped
to the root name `end`; and looking up `end` in the merged table
resolves among the including file's own labels, at index 8. -/
theorem include_alias_merges_labels_and_rewrites_targets_witness :
    alistLookup "m.map_demo" (parseWithInclude "m" mapIncCmds mainBody).labels = some 0
  ∧ alistLookup "m.local_end" (parseWithInclude "m" mapIncCmds mainBody).labels = some 4
  ∧ cmdTargets (renameCmd "m" (Cmd.mapPoi "Local" (100, 100) "local_end")) = ["m.local_end"]
  ∧ cmdTargets (renameCmd "m" (Cmd.mapPoi "Global" (120, 120) "::end")) = ["end"]
  ∧ alistLookup "end" (parseWithInclude "m" mapIncCmds mainBody).labels = some 8 := by
  have h := include_alias_merges_labels_and_rewrites_targets "m" mapIncCmds mainBody
  have hroot : ∀ k, "end" ≠ "m." ++ k := by
    intro k hk
    have hd := congrArg String.data hk
    rw [String.data_append] at hd
    simp at hd
  refine ⟨h.1 "map_demo" 0 (by decide), h.1 "local_end" 4 (by decide), ?_, ?_, ?_⟩
  · rw [h.2.1 (Cmd.mapPoi "Local" (100, 100) "local_end")]
    have := h.2.2.1 "local_end" (by decide)
    simp [cmdTargets, this]
  · rw [h.2.1 (Cmd.mapPoi "Global" (120, 120) "::end")]
    have := h.2.2.2.1 "end"
    simp [cmdTargets]
    exact this
  · rw [h.2.2.2.2 "end" hroot]
    decide

theorem parseTopAux_include_after_command_error
    (resolve : String → List Cmd) (post : List TopStmt) (path al : String) :
    ∀ (pre : List TopStmt) (acc : List Cmd) (n : ℕ) (emitted : Bool),
      (emitted = true ∨ ∃ s, TopStmt.stmt s ∈ pre) →
      parseTopAux resolve (pre ++ TopStmt.includeStmt path al :: post) acc n emitted
        = .error { message := "include must appear before any other commands" } := by
  intro pre
  induction pre with
  | nil =>
      intro acc n emitted h
      rcases h with h | ⟨s, hs⟩
      · subst h
        simp [parseTopAux]
      · simp at hs
  | cons t rest ih =>
      intro acc n emitted h
      cases t with
      | includeStmt p a =>
          by_cases he : emitted = true
          · subst he
            simp [parseTopAux]
          · have he' : emitted = false := by
              cases emitted
              · rfl
              · exact absurd rfl he
            subst he'
            have h' : ∃ s, TopStmt.stmt s ∈ rest := by
              rcases h with h | ⟨s, hs⟩
              · exact absurd h (by simp)
              · rcases List.mem_cons.mp hs with h1 | h2
                · exact absurd h1 (by simp)
                · exact ⟨s, h2⟩
            simp only [List.cons_append, parseTopAux, if_neg Bool.false_ne_true]
            exact ih _ _ _ (Or.inr h')
      | stmt s0 =>
          simp only [List.cons_append, parseTopAux]
          exact ih _ _ _ (Or.inl rfl)

/-- Claim C8: in every script file where an `include "<path>" as
<alias>;` statement appears after any command-producing statement,
parsing fails with a ScriptParseError whose message is exactly
"include must appear before any other commands" (so in particular the
message contains that text), and no Program is produced (the result is
the error branch of `Except`). -/
theorem include_after_commands_is_parse_error
    (resolve : String → List Cmd) (pre post : List TopStmt) (path al : String)
    (h : ∃ s, TopStmt.stmt s ∈ pre) :
    parseTop resolve (pre ++ TopStmt.includeStmt path al :: post)
      = .error { message := "include must appear before any other commands" } := by
  unfold parseTop
  rw [parseTopAux_include_after_command_error resolve post path al pre [] 0 false (Or.inr h)]
  rfl

/-- Witness for C8 at the regression-test script
(`test_include_must_appear_before_other_commands`): `label start:`
and `narrator "x";` precede the include, so parsing yields the
include-ordering error and no Program. -/
theorem include_after_commands_is_parse_error_witness :
    parseTop (fun _ => [Cmd.label "opening"])
        [TopStmt.stmt (Stmt.label "start"),
         TopStmt.stmt (Stmt.say "narrator" "x"),
         TopStmt.includeStmt "chapters/intro.vn" "intro"]
      = .error { message := "include must appear before any other commands" } :=
  include_after_commands_is_parse_error (fun _ => [Cmd.label "opening"])
    [TopStmt.stmt (Stmt.label "start"), TopStmt.stmt (Stmt.say "narrator" "x")]
    [] "chapters/intro.vn" "intro" ⟨Stmt.label "start", by simp⟩

/-- Claim C1: for every runtime state whose choice bookkeeping is
coherent (as in any reachable state), `save_quick` followed by
`load_quick` restores every claimed state field exactly — variables,
sprites, inventory (with page and open flag), meters, hud buttons,
map overlay state, camera, command index, background, music,
characters, hotspots, and the in-progress choice including its
selected option index, its timeout duration and default, its timer
start, and hence the remaining timeout time (the elapsed-time
conjunct). -/
theorem save_quick_load_quick_round_trip
    (loader : List String → List Cmd × List (String × ℕ)) (s : RState)
    (h : choiceCoherent s) :
    (load_quick loader (save_quick s)).vars = s.vars
  ∧ (load_quick loader (save_quick s)).sprites = s.sprites
  ∧ (load_quick loader (save_quick s)).inventory = s.inventory
  ∧ (load_quick loader (save_quick s)).inventoryPage = s.inventoryPage
  ∧ (load_quick loader (save_quick s)).inventoryOpen = s.inventoryOpen
  ∧ (load_quick loader (save_quick s)).meters = s.meters
  ∧ (load_quick loader (save_quick s)).hudButtons = s.hudButtons
  ∧ (load_quick loader (save_quick s)).music = s.music
  ∧ (load_quick loader (save_quick s)).characters = s.characters
  ∧ (load_quick loader (save_quick s)).hotspots = s.hotspots
  ∧ (load_quick loader (save_quick s)).hotspotDebug = s.hotspotDebug
  ∧ (load_quick loader (save_quick s)).mapActive = s.mapActive
  ∧ (load_quick loader (save_quick s)).mapImage = s.mapImage
  ∧ (load_quick loader (save_quick s)).mapPoints = s.mapPoints
  ∧ (load_quick loader (save_quick s)).camera = s.camera
  ∧ (load_quick loader (save_quick s)).background = s.background
  ∧ (load_quick loader (save_quick s)).index = s.index
  ∧ (load_quick loader (save_quick s)).currentChoice = s.currentChoice
  ∧ (load_quick loader (save_quick s)).choiceSelected = s.choiceSelected
  ∧ (load_quick loader (save_quick s)).choiceTimeoutMs = s.choiceTimeoutMs
  ∧ (load_quick loader (save_quick s)).choiceTimeoutDefault = s.choiceTimeoutDefault
  ∧ (load_quick loader (save_quick s)).choiceTimerStartMs = s.choiceTimerStartMs
  ∧ choiceElapsed (load_quick loader (save_quick s)) = choiceElapsed s := by
  have hcc : (load_quick loader (save_quick s)).currentChoice = s.currentChoice := by
    show (s.currentChoice.map (fun ch =>
        ({ prompt := ch.prompt, options := ch.options, selected := s.choiceSelected,
           timeoutMs := s.choiceTimeoutMs, timeoutDefault := s.choiceTimeoutDefault,
           timeoutElapsedMs := choiceElapsed s } : ChoiceSnapshot))).map
        (fun w => ({ prompt := w.prompt, options := w.options } : ChoiceState))
      = s.currentChoice
    cases s.currentChoice <;> rfl
  have hsel : (load_quick loader (save_quick s)).choiceSelected = s.choiceSelected := by
    show (s.currentChoice.map (fun ch =>
        ({ prompt := ch.prompt, options := ch.options, selected := s.choiceSelected,
           timeoutMs := s.choiceTimeoutMs, timeoutDefault := s.choiceTimeoutDefault,
           timeoutElapsedMs := choiceElapsed s } : ChoiceSnapshot))).bind
        (fun w => w.selected)
      = s.choiceSelected
    cases hc : s.currentChoice
    · exact ((h hc).1).symm
    · rfl
  have htmo : (load_quick loader (save_quick s)).choiceTimeoutMs = s.choiceTimeoutMs := by
    show (s.currentChoice.map (fun ch =>
        ({ prompt := ch.prompt, options := ch.options, selected := s.choiceSelected,
           timeoutMs := s.choiceTimeoutMs, timeoutDefault := s.choiceTimeoutDefault,
           timeoutElapsedMs := choiceElapsed s } : ChoiceSnapshot))).bind
        (fun w => w.timeoutMs)
      = s.choiceTimeoutMs
    cases hc : s.currentChoice
    · exact ((h hc).2.1).symm
    · rfl
  have htd : (load_quick loader (save_quick s)).choiceTimeoutDefault
      = s.choiceTimeoutDefault := by
    show (s.currentChoice.map (fun ch =>
        ({ prompt := ch.prompt, options := ch.options, selected := s.choiceSelected,
           timeoutMs := s.choiceTimeoutMs, timeoutDefault := s.choiceTimeoutDefault,
           timeoutElapsedMs := choiceElapsed s } : ChoiceSnapshot))).bind
        (fun w => w.timeoutDefault)
      = s.choiceTimeoutDefault
    cases hc : s.currentChoice
    · exact ((h hc).2.2.1).symm
    · rfl
  have hts : (load_quick loader (save_quick s)).choiceTimerStartMs
      = s.choiceTimerStartMs := by
    show (s.currentChoice.map (fun ch =>
        ({ prompt := ch.prompt, options := ch.options, selected := s.choiceSelected,
           timeoutMs := s.choiceTimeoutMs, timeoutDefault := s.choiceTimeoutDefault,
           timeoutElapsedMs := choiceElapsed s } : ChoiceSnapshot))).bind
        (fun w => w.timeoutElapsedMs.map (fun e => s.nowMs - e))
      = s.choiceTimerStartMs
    cases hc : s.currentChoice
    · exact ((h hc).2.2.2).symm
    · show (s.choiceTimerStartMs.map (fun t => s.nowMs - t)).map (fun e => s.nowMs - e)
          = s.choiceTimerStartMs
      cases s.choiceTimerStartMs with
      | none => rfl
      | some t =>
          show some (s.nowMs - (s.nowMs - t)) = some t
          rw [sub_sub_cancel]
  have hel : choiceElapsed (load_quick loader (save_quick s)) = choiceElapsed s := by
    unfold choiceElapsed
    rw [hts]
    rw [show (load_quick loader (save_quick s)).nowMs = s.nowMs from rfl]
  exact ⟨rfl, rfl, rfl, rfl, rfl, rfl, rfl, rfl, rfl, rfl, rfl, rfl, rfl, rfl, rfl, rfl,
    rfl, hcc, hsel, htmo, htd, hts, hel⟩

/-- Witness for C1 at the regression-test scenario
(`test_apply_save_data_restores_script_ui_and_choice_timeout` /
`test_pause_menu_quick_save_and_quick_load_restore_state`): the state
with an in-progress timed choice (selected 1, timeout 8000 ms, default
2, timer started at 500 ms) is coherent, and the quick-save/quick-load
round trip restores its variables, camera and choice bookkeeping. -/
theorem save_quick_load_quick_round_trip_witness :
    choiceCoherent saveState
  ∧ (load_quick quickLoader (save_quick saveState)).vars = saveState.vars
  ∧ (load_quick quickLoader (save_quick saveState)).camera = saveState.camera
  ∧ (load_quick quickLoader (save_quick saveState)).choiceSelected = saveState.choiceSelected
  ∧ (load_quick quickLoader (save_quick saveState)).choiceTimeoutMs = saveState.choiceTimeoutMs
  ∧ (load_quick quickLoader (save_quick saveState)).choiceTimerStartMs
      = saveState.choiceTimerStartMs := by
  have hcoh : choiceCoherent saveState := by
    intro hnone
    exact Option.noConfusion
      (hnone.symm.trans (show saveState.currentChoice
        = some { prompt := "Select", options := [("Go", "start"), ("Quit", "end")] } from rfl))
  obtain ⟨hv, hsp, hin, hip, hio, hme, hhb, hmu, hch, hho, hhd, hma, hmi, hmp, hca, hbg,
    hix, hcc, hsel, htmo, htd, hts, hel⟩ :=
    save_quick_load_quick_round_trip quickLoader saveState hcoh
  exact ⟨hcoh, hv, hca, hsel, htmo, hts⟩

end VN
